import Mathlib

/-!
Verification development for the Lightning qubit state-vector core
(`StateVectorLQubit`): operation dispatch, matrix application, generators,
and the measurement/collapse subsystem, together with the `PauliGenerator`
kernels.  Definitions are shallow embeddings of the C++ sources; parts of
the system that live outside the given sources (the dynamic dispatcher's
name tables, the PRNG stream, `setBasisState`, the Pauli kernels) are
modelled from the specification and marked as such in their doc comments.
-/

noncomputable section

namespace LightningQubit

/-- Machine epsilon of the scalar type; the sources instantiate
`PrecisionT` at IEEE double, whose `std::numeric_limits` epsilon is
`2^-52`. -/
def machineEps : ℝ := 1 / 2 ^ 52

/-- Modelled from the spec: kernel identifiers enumerate interchangeable
numeric implementations ("scalar, vectorized-2, vectorized-4,
matrix-general"); the enumeration itself lives in `KernelType.hpp`,
outside these sources. -/
inductive KernelType where
  | scalar
  | vectorized2
  | vectorized4
  | matrixGeneral
deriving DecidableEq

/-- The `MatrixOperation` identifiers used by the wire-count sizing rule
of `applyMatrix`. -/
inductive MatrixOperation where
  | SingleQubitOp
  | TwoQubitOp
  | MultiQubitOp
deriving DecidableEq

/-- The `ControlledMatrixOperation` identifiers used by the wire-count
sizing rule of `applyControlledMatrix`. -/
inductive ControlledMatrixOperation where
  | NCSingleQubitOp
  | NCTwoQubitOp
  | NCMultiQubitOp
deriving DecidableEq

/-- Errors surfaced to the caller: `PL_ABORT`-style invalid-argument
failures carrying the message of the failed check, and the dispatcher's
unknown-operation lookup failure (spec taxonomy). -/
inductive PLError where
  | invalidArgument (msg : String)
  | unknownOperation (opName : String)
deriving DecidableEq

/-- Message of the control-wire/value length check
(`PL_ABORT_IF_NOT(controlled_wires.size() == controlled_values.size(), ...)`). -/
def msgCtrlSize : String :=
  "`controlled_wires` must have the same size as `controlled_values`."

/-- Message of the empty-wires check (`PL_ABORT_IF(wires.empty(), ...)`). -/
def msgWiresEmpty : String := "Number of wires must be larger than 0"

/-- Message of the matrix-size check
(`PL_ABORT_IF(matrix.size() != exp2(2 * wires.size()), ...)`). -/
def msgMatrixSize : String :=
  "The size of matrix does not match with the given number of wires"

/-- A call handed to the dynamic dispatcher: which dispatcher function is
invoked, with which kernel and which arguments.  Executing these calls
(the kernels' buffer mutation) is outside the sources; an entry point
that returns an error instead of a `DispatchCall` performs no dispatch
and hence mutates no amplitude. -/
inductive DispatchCall where
  | gate (kernel : KernelType) (opName : String) (wires : List ℕ)
      (inverse : Bool) (params : List ℝ)
  | controlledGate (kernel : KernelType) (opName : String)
      (controlled_wires : List ℕ) (controlled_values : List Bool)
      (wires : List ℕ) (inverse : Bool) (params : List ℝ)
  | matrix (kernel : KernelType) (matrixData : ℕ → ℂ) (wires : List ℕ)
      (inverse : Bool)
  | controlledMatrix (kernel : KernelType) (matrixData : ℕ → ℂ)
      (controlled_wires : List ℕ) (controlled_values : List Bool)
      (wires : List ℕ) (inverse : Bool)
  | generator (kernel : KernelType) (opName : String) (wires : List ℕ)
      (adj : Bool)
  | controlledGenerator (kernel : KernelType) (opName : String)
      (controlled_wires : List ℕ) (controlled_values : List Bool)
      (wires : List ℕ) (adj : Bool)

/-- The per-instance operation-to-kernel maps (`kernel_for_gates_`,
`kernel_for_matrices_`, ...), built at construction and immutable
thereafter.  Gate-family maps are keyed here by operation name, standing
for the bijective name/identifier tables of the dispatcher. -/
structure Kernels where
  gate : String → KernelType
  controlledGate : String → KernelType
  generator : String → KernelType
  controlledGenerator : String → KernelType
  matrix : MatrixOperation → KernelType
  controlledMatrix : ControlledMatrixOperation → KernelType

/-- Modelled from the spec: the dispatcher's static gate-name table
(`strToGateOp` / `hasGateOp`); the table itself lives in the dispatcher,
outside these sources. -/
def gateNames : List String :=
  ["Identity", "PauliX", "PauliY", "PauliZ", "Hadamard", "S", "T",
   "RX", "RY", "RZ", "CNOT", "CZ", "SWAP"]

/-- Modelled from the spec: the dispatcher's static controlled-gate-name
table (`strToControlledGateOp`). -/
def controlledGateNames : List String :=
  ["PauliX", "PauliY", "PauliZ", "Hadamard", "RX", "RY", "RZ"]

/-- Modelled from the spec: the dispatcher's static generator-name table
(`strToGeneratorOp`); the spec names the rotation generators RX, RY, RZ. -/
def generatorNames : List String := ["RX", "RY", "RZ"]

/-- Modelled from the spec: the dispatcher's static controlled-generator
name table (`strToControlledGeneratorOp`). -/
def controlledGeneratorNames : List String := ["RX", "RY", "RZ"]

/-- `applyMatrix(kernel, matrix*, wires, inverse)` (pointer overload):
aborts on empty wires, then dispatches the matrix with the given kernel. -/
def applyMatrix_kernel_ptr (kernel : KernelType) (matrix : ℕ → ℂ)
    (wires : List ℕ) (inverse : Bool) : Except PLError DispatchCall :=
  if wires = [] then .error (.invalidArgument msgWiresEmpty)
  else .ok (.matrix kernel matrix wires inverse)

/-- `applyMatrix(kernel, matrix_vector, wires, inverse)` (vector
overload): aborts unless `matrix.size() == exp2(2 * wires.size())`, then
delegates to the pointer overload. -/
def applyMatrix_kernel_vec (kernel : KernelType) (matrix : List ℂ)
    (wires : List ℕ) (inverse : Bool) : Except PLError DispatchCall :=
  if matrix.length ≠ 2 ^ (2 * wires.length) then
    .error (.invalidArgument msgMatrixSize)
  else applyMatrix_kernel_ptr kernel (fun i => matrix.getD i 0) wires inverse

/-- `applyMatrix(matrix*, wires, inverse)` (pointer overload): aborts on
empty wires, selects the matrix kernel by the wire-count sizing rule
(1 wire, 2 wires, default), then delegates. -/
def applyMatrix_ptr (k : Kernels) (matrix : ℕ → ℂ) (wires : List ℕ)
    (inverse : Bool) : Except PLError DispatchCall :=
  if wires = [] then .error (.invalidArgument msgWiresEmpty)
  else
    applyMatrix_kernel_ptr
      (match wires.length with
        | 1 => k.matrix MatrixOperation.SingleQubitOp
        | 2 => k.matrix MatrixOperation.TwoQubitOp
        | _ => k.matrix MatrixOperation.MultiQubitOp)
      matrix wires inverse

/-- `applyMatrix(matrix_vector, wires, inverse)` (vector overload):
aborts unless `matrix.size() == exp2(2 * wires.size())`, then delegates
to the pointer overload. -/
def applyMatrix_vec (k : Kernels) (matrix : List ℂ) (wires : List ℕ)
    (inverse : Bool) : Except PLError DispatchCall :=
  if matrix.length ≠ 2 ^ (2 * wires.length) then
    .error (.invalidArgument msgMatrixSize)
  else applyMatrix_ptr k (fun i => matrix.getD i 0) wires inverse

/-- `applyControlledMatrix(matrix*, controlled_wires, controlled_values,
wires, inverse)` (pointer overload): aborts on empty wires, then on a
control-wire/value length mismatch, selects the controlled-matrix kernel
by the wire-count sizing rule, and dispatches.  No matrix-size check is
performed. -/
def applyControlledMatrix_ptr (k : Kernels) (matrix : ℕ → ℂ)
    (controlled_wires : List ℕ) (controlled_values : List Bool)
    (wires : List ℕ) (inverse : Bool) : Except PLError DispatchCall :=
  if wires = [] then .error (.invalidArgument msgWiresEmpty)
  else if controlled_wires.length ≠ controlled_values.length then
    .error (.invalidArgument msgCtrlSize)
  else
    .ok (.controlledMatrix
      (match wires.length with
        | 1 => k.controlledMatrix ControlledMatrixOperation.NCSingleQubitOp
        | 2 => k.controlledMatrix ControlledMatrixOperation.NCTwoQubitOp
        | _ => k.controlledMatrix ControlledMatrixOperation.NCMultiQubitOp)
      matrix controlled_wires controlled_values wires inverse)

/-- `applyControlledMatrix(matrix_vector, ...)` (vector overload): passes
`matrix.data()` straight to the pointer overload; the vector's size is
never validated. -/
def applyControlledMatrix_vec (k : Kernels) (matrix : List ℂ)
    (controlled_wires : List ℕ) (controlled_values : List Bool)
    (wires : List ℕ) (inverse : Bool) : Except PLError DispatchCall :=
  applyControlledMatrix_ptr k (fun i => matrix.getD i 0) controlled_wires
    controlled_values wires inverse

/-- `applyOperation(opName, wires, inverse, params)` (named overload):
resolves the name through the dispatcher's gate table (unknown names
fail) and dispatches with the instance's kernel for that gate. -/
def applyOperation_named (k : Kernels) (opName : String) (wires : List ℕ)
    (inverse : Bool) (params : List ℝ) : Except PLError DispatchCall :=
  if gateNames.contains opName then
    .ok (.gate (k.gate opName) opName wires inverse params)
  else .error (.unknownOperation opName)

/-- `applyOperation(opName, controlled_wires, controlled_values, wires,
inverse, params)` (named controlled overload): aborts on a
control-wire/value length mismatch, then resolves the name through the
controlled-gate table and dispatches. -/
def applyOperation_ctrl (k : Kernels) (opName : String)
    (controlled_wires : List ℕ) (controlled_values : List Bool)
    (wires : List ℕ) (inverse : Bool) (params : List ℝ) :
    Except PLError DispatchCall :=
  if controlled_wires.length ≠ controlled_values.length then
    .error (.invalidArgument msgCtrlSize)
  else if controlledGateNames.contains opName then
    .ok (.controlledGate (k.controlledGate opName) opName controlled_wires
      controlled_values wires inverse params)
  else .error (.unknownOperation opName)

/-- `applyOperation(opName, wires, inverse, params, matrix)` (raw-matrix
fallback overload): a name with a gate operation goes through the named
path, otherwise the matrix is applied through `applyMatrix`. -/
def applyOperation_mat (k : Kernels) (opName : String) (wires : List ℕ)
    (inverse : Bool) (params : List ℝ) (matrix : List ℂ) :
    Except PLError DispatchCall :=
  if gateNames.contains opName then
    applyOperation_named k opName wires inverse params
  else applyMatrix_vec k matrix wires inverse

/-- `applyOperation(opName, controlled_wires, controlled_values, wires,
inverse, params, matrix)` (raw-matrix overload with controls): aborts on
a control-wire/value length mismatch; when `controlled_wires` is
non-empty it delegates to the named controlled overload and returns;
only with empty controls does it fall back to the plain
named-gate/matrix resolution. -/
def applyOperation_ctrl_mat (k : Kernels) (opName : String)
    (controlled_wires : List ℕ) (controlled_values : List Bool)
    (wires : List ℕ) (inverse : Bool) (params : List ℝ)
    (matrix : List ℂ) : Except PLError DispatchCall :=
  if controlled_wires.length ≠ controlled_values.length then
    .error (.invalidArgument msgCtrlSize)
  else if controlled_wires ≠ [] then
    applyOperation_ctrl k opName controlled_wires controlled_values wires
      inverse params
  else if gateNames.contains opName then
    applyOperation_named k opName wires inverse params
  else applyMatrix_vec k matrix wires inverse

/-- `applyGenerator(opName, controlled_wires, controlled_values, wires,
adj)` (controlled overload): resolves the name through the
controlled-generator table, looks up the kernel, and hands the call to
`dispatcher.applyControlledGenerator`.  The entry point itself performs
no argument check. -/
def applyGenerator_ctrl (k : Kernels) (opName : String)
    (controlled_wires : List ℕ) (controlled_values : List Bool)
    (wires : List ℕ) (adj : Bool) : Except PLError DispatchCall :=
  if controlledGeneratorNames.contains opName then
    .ok (.controlledGenerator (k.controlledGenerator opName) opName
      controlled_wires controlled_values wires adj)
  else .error (.unknownOperation opName)

/-- Modelled from the spec (dispatcher contract): before mutating the
buffer, a dispatched controlled call validates
`controlWires.size() == controlValues.size()`, failing with an
invalid-argument condition; the dispatcher itself lives outside these
sources. -/
def dispatchPrecheck : DispatchCall → Except PLError Unit
  | .controlledGate _ _ cw cv _ _ _ =>
      if cw.length ≠ cv.length then .error (.invalidArgument msgCtrlSize)
      else .ok ()
  | .controlledMatrix _ _ cw cv _ _ =>
      if cw.length ≠ cv.length then .error (.invalidArgument msgCtrlSize)
      else .ok ()
  | .controlledGenerator _ _ cw cv _ _ =>
      if cw.length ≠ cv.length then .error (.invalidArgument msgCtrlSize)
      else .ok ()
  | _ => .ok ()

/-- The observable outcome of the controlled `applyGenerator` entry
point: its own name resolution followed by the dispatcher's precondition
validation. -/
def applyGenerator_ctrl_run (k : Kernels) (opName : String)
    (controlled_wires : List ℕ) (controlled_values : List Bool)
    (wires : List ℕ) (adj : Bool) : Except PLError DispatchCall :=
  (applyGenerator_ctrl k opName controlled_wires controlled_values wires
    adj).bind fun c => (dispatchPrecheck c).map fun _ => c

/-- The state-vector instance: qubit count, the amplitude buffer (a
function on indices; only indices below `2 ^ numQubits` are the buffer),
and the state of the instance's own random stream.  The
operation-to-kernel maps are immutable after construction and are kept
separately in `Kernels`. -/
structure SV where
  numQubits : ℕ
  data : ℕ → ℂ
  rngState : ℕ

/-- `Util::squaredNorm(arr, length)`: the sum of the squared magnitudes
of the first `length` amplitudes. -/
def squaredNorm (data : ℕ → ℂ) (length : ℕ) : ℝ :=
  ∑ k ∈ Finset.range length, Complex.normSq (data k)

/-- `seed(seed)`: reseed the instance's random stream. -/
def seed (sv : SV) (s : ℕ) : SV := { sv with rngState := s }

/-- Modelled from the spec: one uniform draw in `[0, 1)` from the
deterministic seedable stream (`std::mt19937_64` lives outside these
sources). -/
def rngUnif (r : ℕ) : ℝ := ((r % 4294967296 : ℕ) : ℝ) / 4294967296

/-- Modelled from the spec: deterministic advance of the random-stream
state. -/
def rngNext (r : ℕ) : ℕ :=
  (6364136223846793005 * r + 1442695040888963407) % 18446744073709551616

/-- `random_sample(prob_0)`: draw from the two-outcome categorical
distribution with weights `(prob_0, 1 - prob_0)` and advance the
stream.  Modelled from the spec: `std::discrete_distribution` is
realized as inverse-CDF sampling of one uniform draw. -/
def random_sample (prob_0 : ℝ) (r : ℕ) : ℤ × ℕ :=
  (if rngUnif r < prob_0 then 0 else 1, rngNext r)

/-- `probs(wire)`: both probabilities of measuring 0 or 1 on `wire`,
accumulated over the stride partition (`stride = 2^(num_qubits - (1 +
wire))`, `offset = stride * 2 * idx`). -/
def probs (sv : SV) (wire : ℕ) : List ℝ :=
  [∑ idx ∈ Finset.range ((2 ^ sv.numQubits / 2 ^ (sv.numQubits - (1 + wire))) / 2),
     ∑ ids ∈ Finset.range (2 ^ (sv.numQubits - (1 + wire))),
       Complex.normSq (sv.data (2 ^ (sv.numQubits - (1 + wire)) * 2 * idx + ids)),
   1 - ∑ idx ∈ Finset.range ((2 ^ sv.numQubits / 2 ^ (sv.numQubits - (1 + wire))) / 2),
     ∑ ids ∈ Finset.range (2 ^ (sv.numQubits - (1 + wire))),
       Complex.normSq (sv.data (2 ^ (sv.numQubits - (1 + wire)) * 2 * idx + ids))]

/-- `normalize()`: divide every amplitude by the Euclidean norm (one
reciprocal multiplied in), but only when the norm exceeds `epsilon *
1e2`; otherwise the buffer is left unscaled. -/
def normalize (sv : SV) : SV :=
  if Real.sqrt (squaredNorm sv.data (2 ^ sv.numQubits)) > machineEps * 100 then
    { sv with data := fun k =>
        sv.data k *
          ((1 / Real.sqrt (squaredNorm sv.data (2 ^ sv.numQubits)) : ℝ) : ℂ) }
  else sv

/-- The buffer after the zeroing loop of `collapse(wire, branch)`: the
entries written by `arr[stride * (k + 2 * idx) + ids] = 0` for
`idx < half_section_size`, `ids < stride`, with `k = branch ? 0 : 1`. -/
def collapsedData (sv : SV) (wire : ℕ) (branch : Bool) : ℕ → ℂ :=
  fun i =>
    if (List.range ((2 ^ sv.numQubits / 2 ^ (sv.numQubits - (1 + wire))) / 2)).any
        (fun idx => (List.range (2 ^ (sv.numQubits - (1 + wire)))).any
          (fun ids =>
            i == 2 ^ (sv.numQubits - (1 + wire)) * ((if branch then 0 else 1) + 2 * idx) + ids))
    then 0 else sv.data i

/-- `collapse(wire, branch)`: zero the entries of the losing branch,
then `normalize()`. -/
def collapse (sv : SV) (wire : ℕ) (branch : Bool) : SV :=
  normalize { sv with data := collapsedData sv wire branch }

/-- Modelled from the spec: `setBasisState(index)` "must zero the buffer
and set amplitude at `index` to 1"; the implementation lives in the
derived storage classes outside these sources. -/
def setBasisState (sv : SV) (index : ℕ) : SV :=
  { sv with data := fun i => if i = index then 1 else 0 }

/-- Modelled from the spec: the PauliX kernel acts as the bit-flip on
the target wire (the kernel implementations live outside these sources,
and the kernel choice does not change the gate's mathematical action). -/
def applyPauliXData (data : ℕ → ℂ) (num_qubits : ℕ) (wire : ℕ) : ℕ → ℂ :=
  fun i => data (i ^^^ 2 ^ (num_qubits - (1 + wire)))

/-- `measure(wire, postselect, reset)`: compute the wire's
probabilities, draw a sample from the instance's stream; on a
postselection mismatch set the basis state at index 0, zero its
amplitude, and report `-1`; otherwise collapse to the drawn branch and,
if `reset` is requested and the branch is 1, apply `PauliX` on the
wire. -/
def measure (sv : SV) (wire : ℕ) (postselect : ℤ) (reset : Bool) : ℤ × SV :=
  let probs_ := probs sv wire
  let drawn := random_sample (probs_.getD 0 0) sv.rngState
  let sample := drawn.1
  let sv0 : SV := { sv with rngState := drawn.2 }
  if postselect ≠ -1 ∧ postselect ≠ sample then
    let sv1 := setBasisState sv0 0
    (-1, { sv1 with data := fun i => if i = 0 then 0 else sv1.data i })
  else
    let sv1 := collapse sv0 wire (decide (sample ≠ 0))
    if reset ∧ sample = 1 then
      (sample,
        { sv1 with data := applyPauliXData sv1.data sv1.numQubits wire })
    else (sample, sv1)

/-- Repeated `measure(wire)` calls (default `postselect = -1`, no
reset), threading the instance state; returns the sequence of samples. -/
def measureSeq (sv : SV) (wire : ℕ) : ℕ → List ℤ
  | 0 => []
  | n + 1 =>
      (measure sv wire (-1) false).1 ::
        measureSeq (measure sv wire (-1) false).2 wire n

/-- The CRTP `GateImplementation` template parameter of
`PauliGenerator`: the Pauli kernels of some gate implementation (their
code lives outside these sources). -/
structure GateImplementation where
  applyPauliX : (ℕ → ℂ) → ℕ → List ℕ → Bool → (ℕ → ℂ)
  applyPauliY : (ℕ → ℂ) → ℕ → List ℕ → Bool → (ℕ → ℂ)
  applyPauliZ : (ℕ → ℂ) → ℕ → List ℕ → Bool → (ℕ → ℂ)

/-- `PauliGenerator::applyGeneratorRX`: apply `PauliX` to the buffer and
return the scalar `-static_cast<PrecisionT>(0.5)`. -/
def applyGeneratorRX (G : GateImplementation) (data : ℕ → ℂ)
    (num_qubits : ℕ) (wires : List ℕ) (adj : Bool) : (ℕ → ℂ) × ℝ :=
  (G.applyPauliX data num_qubits wires adj, -(0.5 : ℝ))

/-- `PauliGenerator::applyGeneratorRY`: apply `PauliY` to the buffer and
return the scalar `-static_cast<PrecisionT>(0.5)`. -/
def applyGeneratorRY (G : GateImplementation) (data : ℕ → ℂ)
    (num_qubits : ℕ) (wires : List ℕ) (adj : Bool) : (ℕ → ℂ) × ℝ :=
  (G.applyPauliY data num_qubits wires adj, -(0.5 : ℝ))

/-- `PauliGenerator::applyGeneratorRZ`: apply `PauliZ` to the buffer and
return the scalar `-static_cast<PrecisionT>(0.5)`. -/
def applyGeneratorRZ (G : GateImplementation) (data : ℕ → ℂ)
    (num_qubits : ℕ) (wires : List ℕ) (adj : Bool) : (ℕ → ℂ) × ℝ :=
  (G.applyPauliZ data num_qubits wires adj, -(0.5 : ℝ))

/-- Modelled from the spec: the dispatcher's generator registry maps the
rotation-gate names to the `PauliGenerator` kernels. -/
def dispatchGenerator (G : GateImplementation) (opName : String)
    (data : ℕ → ℂ) (num_qubits : ℕ) (wires : List ℕ) (adj : Bool) :
    Option ((ℕ → ℂ) × ℝ) :=
  if opName = "RX" then some (applyGeneratorRX G data num_qubits wires adj)
  else if opName = "RY" then some (applyGeneratorRY G data num_qubits wires adj)
  else if opName = "RZ" then some (applyGeneratorRZ G data num_qubits wires adj)
  else none

/-- `applyGenerator(opName, wires, adj)` (named overload): resolve the
generator name, apply the generator's kernel to the buffer and return
the new state together with the generator's scalar coefficient. -/
def applyGenerator_named (G : GateImplementation) (sv : SV)
    (opName : String) (wires : List ℕ) (adj : Bool) :
    Except PLError (SV × ℝ) :=
  match dispatchGenerator G opName sv.data sv.numQubits wires adj with
  | some dc => .ok ({ sv with data := dc.1 }, dc.2)
  | none => .error (.unknownOperation opName)

/-- The spec's description of the zero-branch probability: the sum of
the squared magnitudes of exactly those amplitudes whose index has bit
value 0 for the wire under the stride partition. -/
def specProb0 (sv : SV) (wire : ℕ) : ℝ :=
  ∑ i ∈ (Finset.range (2 ^ sv.numQubits)).filter
      (fun i => (i / 2 ^ (sv.numQubits - (1 + wire))) % 2 = 0),
    Complex.normSq (sv.data i)

/-! ### Stride-partition arithmetic

The zeroing/accumulation loops walk `offset = stride * (k + 2 * idx)`
runs; these lemmas identify the visited index set with the indices whose
wire bit `i / stride % 2` equals `k`. -/

lemma stride_run_lt (stride k ids : ℕ) (hk : k < 2) (hids : ids < stride) :
    stride * k + ids < stride * 2 := by
  have h1 : stride * k ≤ stride * 1 := Nat.mul_le_mul_left stride (by omega)
  omega

lemma stride_run_div (stride k idx ids : ℕ) (hk : k < 2) (hids : ids < stride) :
    (stride * (k + 2 * idx) + ids) / (stride * 2) = idx := by
  have h1 : stride * (k + 2 * idx) + ids = stride * k + ids + stride * 2 * idx := by
    ring
  rw [h1, Nat.add_mul_div_left _ _ (by omega : (0 : ℕ) < stride * 2),
    Nat.div_eq_of_lt (stride_run_lt stride k ids hk hids)]
  omega

lemma stride_run_mod (stride k idx ids : ℕ) (hids : ids < stride) :
    (stride * (k + 2 * idx) + ids) % stride = ids := by
  simp [Nat.add_mod, Nat.mul_mod_right, Nat.mod_eq_of_lt hids]

lemma strideDecomp_iff (stride half k i : ℕ) (hs : 0 < stride) (hk : k < 2) :
    (∃ idx < half, ∃ ids < stride, i = stride * (k + 2 * idx) + ids) ↔
      i < stride * 2 * half ∧ i / stride % 2 = k := by
  constructor
  · rintro ⟨idx, hidx, ids, hids, rfl⟩
    have hdiv : (stride * (k + 2 * idx) + ids) / stride = k + 2 * idx := by
      rw [Nat.mul_add_div hs, Nat.div_eq_of_lt hids, Nat.add_zero]
    refine ⟨?_, by rw [hdiv]; omega⟩
    have h1 : stride * (k + 2 * idx + 1) = stride * (k + 2 * idx) + stride := by
      ring
    have h2 : stride * (k + 2 * idx + 1) ≤ stride * (2 * half) :=
      Nat.mul_le_mul_left stride (by omega)
    have h3 : stride * (2 * half) = stride * 2 * half := by ring
    omega
  · rintro ⟨hlt, hmod⟩
    refine ⟨i / (stride * 2), ?_, i % stride, Nat.mod_lt _ hs, ?_⟩
    · have h2 : (0 : ℕ) < stride * 2 := by omega
      rw [Nat.div_lt_iff_lt_mul h2]
      calc i < stride * 2 * half := hlt
        _ = half * (stride * 2) := by ring
    · have h2 : i % (stride * 2) / stride = k := by
        rw [Nat.mod_mul_right_div_self, hmod]
      have h3 : i % (stride * 2) % stride = i % stride :=
        Nat.mod_mod_of_dvd i ⟨2, rfl⟩
      have h4 : i % (stride * 2) = stride * k + i % stride := by
        conv_lhs => rw [← Nat.div_add_mod (i % (stride * 2)) stride]
        rw [h2, h3]
      have h5 : i = stride * 2 * (i / (stride * 2)) + i % (stride * 2) :=
        (Nat.div_add_mod i (stride * 2)).symm
      have h6 : stride * (k + 2 * (i / (stride * 2))) + i % stride =
          stride * 2 * (i / (stride * 2)) + (stride * k + i % stride) := by
        ring
      rw [h6, ← h4]
      exact h5

lemma collapsedCond_iff (stride half k i : ℕ) :
    ((List.range half).any
        (fun idx => (List.range stride).any
          (fun ids => i == stride * (k + 2 * idx) + ids)) = true) ↔
      ∃ idx < half, ∃ ids < stride, i = stride * (k + 2 * idx) + ids := by
  simp [List.any_eq_true, List.mem_range]

lemma sum_stride_filter (f : ℕ → ℝ) (stride half k : ℕ) (hs : 0 < stride)
    (hk : k < 2) :
    ∑ idx ∈ Finset.range half, ∑ ids ∈ Finset.range stride,
        f (stride * (k + 2 * idx) + ids) =
      ∑ i ∈ (Finset.range (stride * 2 * half)).filter
          (fun i => i / stride % 2 = k), f i := by
  rw [← Finset.sum_product']
  refine Finset.sum_nbij' (fun p => stride * (k + 2 * p.1) + p.2)
    (fun i => (i / (stride * 2), i % stride)) ?_ ?_ ?_ ?_ ?_
  · rintro ⟨idx, ids⟩ hp
    rw [Finset.mem_product, Finset.mem_range, Finset.mem_range] at hp
    rw [Finset.mem_filter, Finset.mem_range]
    exact (strideDecomp_iff stride half k _ hs hk).1 ⟨idx, hp.1, ids, hp.2, rfl⟩
  · intro i hi
    rw [Finset.mem_filter, Finset.mem_range] at hi
    obtain ⟨idx, hidx, ids, hids, heq⟩ :=
      (strideDecomp_iff stride half k i hs hk).2 hi
    have hq : i / (stride * 2) = idx := by
      rw [heq]; exact stride_run_div stride k idx ids hk hids
    have hr : i % stride = ids := by
      rw [heq]; exact stride_run_mod stride k idx ids hids
    dsimp only
    rw [Finset.mem_product, Finset.mem_range, Finset.mem_range, hq, hr]
    exact ⟨hidx, hids⟩
  · rintro ⟨idx, ids⟩ hp
    rw [Finset.mem_product, Finset.mem_range, Finset.mem_range] at hp
    have hq := stride_run_div stride k idx ids hk hp.2
    have hr := stride_run_mod stride k idx ids hp.2
    simp [hq, hr]
  · intro i hi
    rw [Finset.mem_filter, Finset.mem_range] at hi
    obtain ⟨idx, hidx, ids, hids, heq⟩ :=
      (strideDecomp_iff stride half k i hs hk).2 hi
    have hq : i / (stride * 2) = idx := by
      rw [heq]; exact stride_run_div stride k idx ids hk hids
    have hr : i % stride = ids := by
      rw [heq]; exact stride_run_mod stride k idx ids hids
    dsimp only
    rw [hq, hr, heq]
  · intro p _
    rfl

lemma stride_mul_total (n w : ℕ) (h : w < n) :
    2 ^ (n - (1 + w)) * 2 * 2 ^ w = 2 ^ n := by
  rw [mul_assoc, mul_comm 2 (2 ^ w), ← pow_succ, ← pow_add]
  congr 1
  omega

lemma half_section_eq (n w : ℕ) (h : w < n) :
    2 ^ n / 2 ^ (n - (1 + w)) / 2 = 2 ^ w := by
  have h1 : (2 : ℕ) ^ n = 2 ^ (n - (1 + w)) * 2 ^ (w + 1) := by
    rw [← pow_add]; congr 1; omega
  rw [h1, Nat.mul_div_cancel_left _ (Nat.pos_pow_of_pos _ (by omega)), pow_succ,
    Nat.mul_div_cancel _ (by omega)]


/-! ### Routing claims: controlled dispatch, size checks, empty wires -/

/-- A concrete kernel map used by the closed counterexamples and
witnesses. -/
def k0 : Kernels :=
  { gate := fun _ => KernelType.scalar
    controlledGate := fun _ => KernelType.scalar
    generator := fun _ => KernelType.scalar
    controlledGenerator := fun _ => KernelType.scalar
    matrix := fun _ => KernelType.scalar
    controlledMatrix := fun _ => KernelType.scalar }

/-- C2 counterexample: a raw matrix together with non-empty control
wires and a name ("MyUnitary") with no matching named controlled
operation does not reach the controlled-matrix path; the call fails with
the unknown-operation lookup error. -/
theorem applyOperation_ctrl_mat_unknown_counterexample :
    applyOperation_ctrl_mat k0 "MyUnitary" [0] [true] [1] false []
        [1, 0, 0, 1] =
      .error (.unknownOperation "MyUnitary") := by
  rfl

/-- C2 (amended): with non-empty controls the matrix overload of
`applyOperation` always delegates to the named controlled-gate path (an
unresolvable name is an unknown-operation failure, not a
controlled-matrix fallback); the controlled-matrix path, reached through
`applyControlledMatrix`, sizes its kernel by the wire count: 1 target
wire selects `NCSingleQubitOp`, 2 select `NCTwoQubitOp`, 3 or more
select `NCMultiQubitOp`. -/
theorem applyOperation_ctrl_mat_routing (k : Kernels) (opName : String)
    (cw : List ℕ) (cv : List Bool) (wires : List ℕ) (inverse : Bool)
    (params : List ℝ) (matrix : List ℂ) (hne : cw ≠ [])
    (hlen : cw.length = cv.length) :
    applyOperation_ctrl_mat k opName cw cv wires inverse params matrix =
      applyOperation_ctrl k opName cw cv wires inverse params ∧
    (controlledGateNames.contains opName = false →
      applyOperation_ctrl_mat k opName cw cv wires inverse params matrix =
        .error (.unknownOperation opName)) ∧
    (wires.length = 1 →
      applyControlledMatrix_vec k matrix cw cv wires inverse =
        .ok (.controlledMatrix
          (k.controlledMatrix ControlledMatrixOperation.NCSingleQubitOp)
          (fun i => matrix.getD i 0) cw cv wires inverse)) ∧
    (wires.length = 2 →
      applyControlledMatrix_vec k matrix cw cv wires inverse =
        .ok (.controlledMatrix
          (k.controlledMatrix ControlledMatrixOperation.NCTwoQubitOp)
          (fun i => matrix.getD i 0) cw cv wires inverse)) ∧
    (3 ≤ wires.length →
      applyControlledMatrix_vec k matrix cw cv wires inverse =
        .ok (.controlledMatrix
          (k.controlledMatrix ControlledMatrixOperation.NCMultiQubitOp)
          (fun i => matrix.getD i 0) cw cv wires inverse)) := by
  have hwne : ∀ n, wires.length = n → 0 < n → wires ≠ [] := by
    intro n hn hpos h
    subst h
    simp at hn
    omega
  refine ⟨?_, ?_, ?_, ?_, ?_⟩
  · rw [applyOperation_ctrl_mat, if_neg (by omega), if_pos hne]
  · intro hun
    rw [applyOperation_ctrl_mat, if_neg (by omega), if_pos hne,
      applyOperation_ctrl, if_neg (by omega), if_neg (by rw [hun]; simp)]
  · intro h1
    rw [applyControlledMatrix_vec, applyControlledMatrix_ptr,
      if_neg (by exact fun h => hwne _ h1 (by omega) h), if_neg (by omega), h1]
  · intro h2
    rw [applyControlledMatrix_vec, applyControlledMatrix_ptr,
      if_neg (by exact fun h => hwne _ h2 (by omega) h), if_neg (by omega), h2]
  · intro h3
    obtain ⟨m, hm⟩ : ∃ m, wires.length = m + 3 := ⟨wires.length - 3, by omega⟩
    rw [applyControlledMatrix_vec, applyControlledMatrix_ptr,
      if_neg (by exact fun h => hwne _ hm (by omega) h), if_neg (by omega), hm]
    rfl

/-- C2 witness: the amended routing theorem instantiated at a concrete
call with one control wire and one, two, and three target wires. -/
theorem applyOperation_ctrl_mat_routing_witness :
    applyOperation_ctrl_mat k0 "PauliX" [0] [true] [1] false [] [] =
      applyOperation_ctrl k0 "PauliX" [0] [true] [1] false [] ∧
    applyControlledMatrix_vec k0 [1, 0, 0, 1] [0] [true] [1] false =
      .ok (.controlledMatrix KernelType.scalar
        (fun i => ([1, 0, 0, 1] : List ℂ).getD i 0) [0] [true] [1] false) := by
  refine ⟨(applyOperation_ctrl_mat_routing k0 "PauliX" [0] [true] [1] false []
    [] (by simp) (by simp)).1, ?_⟩
  have h := (applyOperation_ctrl_mat_routing k0 "PauliX" [0] [true] [1] false
    [] [1, 0, 0, 1] (by simp) (by simp)).2.2.1 (by simp)
  exact h

/-- C5 counterexample: the vector overload of `applyControlledMatrix`
accepts a 3-element matrix on one target wire (size `3 ≠ 2^(2*1)`) and
dispatches it; no dimension-mismatch failure occurs. -/
theorem applyControlledMatrix_vec_no_size_check_counterexample :
    applyControlledMatrix_vec k0 [1, 0, 0] [] [] [0] false =
      .ok (.controlledMatrix KernelType.scalar
        (fun i => ([1, 0, 0] : List ℂ).getD i 0) [] [] [0] false) ∧
    ([1, 0, 0] : List ℂ).length ≠ 2 ^ (2 * ([0] : List ℕ).length) := by
  exact ⟨rfl, by decide⟩

/-- C5 (amended): the vector `applyMatrix` overloads (with and without
an explicit kernel) fail with the dimension-mismatch error before
dispatch when the matrix size differs from `2^(2|wires|)`;
`applyControlledMatrix` performs no matrix-size check and dispatches the
buffer as given. -/
theorem applyMatrix_size_check (kernel : KernelType) (k : Kernels)
    (matrix : List ℂ) (wires cw : List ℕ) (cv : List Bool) (inverse : Bool)
    (hsize : matrix.length ≠ 2 ^ (2 * wires.length)) :
    applyMatrix_kernel_vec kernel matrix wires inverse =
      .error (.invalidArgument msgMatrixSize) ∧
    applyMatrix_vec k matrix wires inverse =
      .error (.invalidArgument msgMatrixSize) ∧
    (wires ≠ [] → cw.length = cv.length →
      ∃ kn, applyControlledMatrix_vec k matrix cw cv wires inverse =
        .ok (.controlledMatrix kn (fun i => matrix.getD i 0) cw cv wires
          inverse)) := by
  refine ⟨by rw [applyMatrix_kernel_vec, if_pos hsize],
    by rw [applyMatrix_vec, if_pos hsize], ?_⟩
  intro hw hlen
  exact ⟨_, by rw [applyControlledMatrix_vec, applyControlledMatrix_ptr,
    if_neg hw, if_neg (by omega)]⟩

/-- C5 witness: the size-check theorem instantiated at a 3-element
matrix on one wire. -/
theorem applyMatrix_size_check_witness :
    applyMatrix_vec k0 [1, 0, 0] [0] false =
      .error (.invalidArgument msgMatrixSize) ∧
    ∃ kn, applyControlledMatrix_vec k0 [1, 0, 0] [] [] [0] false =
      .ok (.controlledMatrix kn (fun i => ([1, 0, 0] : List ℂ).getD i 0)
        [] [] [0] false) := by
  refine ⟨(applyMatrix_size_check KernelType.scalar k0 [1, 0, 0] [0] [] []
    false (by decide)).2.1, ?_⟩
  exact (applyMatrix_size_check KernelType.scalar k0 [1, 0, 0] [0] [] []
    false (by decide)).2.2 (by simp) (by simp)

/-- C6 counterexample: for the controlled `applyGenerator` entry point
an unknown operation name is resolved (and fails) before the
control-wire/value length check, so a call with mismatched lengths fails
with the unknown-operation lookup error, not the invalid-argument
error. -/
theorem applyGenerator_ctrl_mismatch_counterexample :
    applyGenerator_ctrl_run k0 "Bogus" [0] [] [1] false =
      .error (.unknownOperation "Bogus") ∧
    (Except.error (PLError.unknownOperation "Bogus") :
        Except PLError DispatchCall) ≠
      .error (.invalidArgument msgCtrlSize) := by
  constructor
  · rfl
  · intro h
    simp [msgCtrlSize] at h

/-- C6 (amended): a control-wire/value length mismatch makes every
controlled-variant entry point fail before any dispatch (hence before
any buffer mutation); the named controlled `applyOperation`, its matrix
overload, and `applyControlledMatrix` fail with the invalid-argument
error, while the controlled `applyGenerator` resolves the operation name
first, failing with the invalid-argument error whenever the name is a
known controlled generator and with the unknown-operation lookup error
otherwise. -/
theorem ctrl_length_mismatch_aborts (k : Kernels) (opName : String)
    (cw : List ℕ) (cv : List Bool) (wires : List ℕ) (inverse adj : Bool)
    (params : List ℝ) (matrix : List ℂ)
    (h : cw.length ≠ cv.length) :
    applyOperation_ctrl k opName cw cv wires inverse params =
      .error (.invalidArgument msgCtrlSize) ∧
    applyOperation_ctrl_mat k opName cw cv wires inverse params matrix =
      .error (.invalidArgument msgCtrlSize) ∧
    (∃ msg, applyControlledMatrix_vec k matrix cw cv wires inverse =
      .error (.invalidArgument msg)) ∧
    (∃ e, applyGenerator_ctrl_run k opName cw cv wires adj = .error e) ∧
    (controlledGeneratorNames.contains opName = true →
      applyGenerator_ctrl_run k opName cw cv wires adj =
        .error (.invalidArgument msgCtrlSize)) := by
  refine ⟨by rw [applyOperation_ctrl, if_pos h],
    by rw [applyOperation_ctrl_mat, if_pos h], ?_, ?_, ?_⟩
  · rw [applyControlledMatrix_vec, applyControlledMatrix_ptr]
    by_cases hw : wires = []
    · exact ⟨msgWiresEmpty, by rw [if_pos hw]⟩
    · exact ⟨msgCtrlSize, by rw [if_neg hw, if_pos h]⟩
  · rw [applyGenerator_ctrl_run, applyGenerator_ctrl]
    by_cases hn : controlledGeneratorNames.contains opName = true
    · rw [if_pos hn]
      exact ⟨.invalidArgument msgCtrlSize,
        by simp [Except.bind, Except.map, dispatchPrecheck, if_pos h]⟩
    · rw [if_neg hn]
      exact ⟨.unknownOperation opName, rfl⟩
  · intro hn
    rw [applyGenerator_ctrl_run, applyGenerator_ctrl, if_pos hn]
    simp [Except.bind, Except.map, dispatchPrecheck, if_pos h]

/-- C6 witness: the mismatch theorem instantiated at one control wire
and no control values, both for a known controlled-generator name. -/
theorem ctrl_length_mismatch_aborts_witness :
    applyOperation_ctrl k0 "RX" [0] [] [1] false [] =
      .error (.invalidArgument msgCtrlSize) ∧
    applyGenerator_ctrl_run k0 "RX" [0] [] [1] false =
      .error (.invalidArgument msgCtrlSize) := by
  refine ⟨(ctrl_length_mismatch_aborts k0 "RX" [0] [] [1] false false [] []
    (by simp)).1, ?_⟩
  exact (ctrl_length_mismatch_aborts k0 "RX" [0] [] [1] false false [] []
    (by simp)).2.2.2.2 (by decide)

/-- C10 counterexample: the vector overload of `applyMatrix` called with
empty wires and a 4-element matrix fails its matrix-size check first
(`4 ≠ 2^(2*0) = 1`), so the reported message is the dimension-mismatch
one, not "Number of wires must be larger than 0". -/
theorem applyMatrix_vec_empty_wires_counterexample :
    applyMatrix_vec k0 [1, 0, 0, 1] [] false =
      .error (.invalidArgument msgMatrixSize) ∧
    msgMatrixSize ≠ msgWiresEmpty := by
  constructor
  · rfl
  · intro h
    simp [msgMatrixSize, msgWiresEmpty] at h

/-- C10 (amended): every `applyMatrix` / `applyControlledMatrix` call
with an empty wires list aborts with an invalid-argument error before
any dispatch; the pointer-level overloads report "Number of wires must
be larger than 0", and the vector `applyMatrix` overloads report it
exactly when the matrix has size 1 (= `2^(2*0)`), otherwise their
matrix-size check fails first with the dimension-mismatch message. -/
theorem empty_wires_abort (k : Kernels) (kernel : KernelType)
    (m : ℕ → ℂ) (mv : List ℂ) (cw : List ℕ) (cv : List Bool)
    (inverse : Bool) :
    applyMatrix_kernel_ptr kernel m [] inverse =
      .error (.invalidArgument msgWiresEmpty) ∧
    applyMatrix_ptr k m [] inverse =
      .error (.invalidArgument msgWiresEmpty) ∧
    applyControlledMatrix_ptr k m cw cv [] inverse =
      .error (.invalidArgument msgWiresEmpty) ∧
    applyControlledMatrix_vec k mv cw cv [] inverse =
      .error (.invalidArgument msgWiresEmpty) ∧
    (mv.length = 1 → applyMatrix_kernel_vec kernel mv [] inverse =
      .error (.invalidArgument msgWiresEmpty)) ∧
    (mv.length = 1 → applyMatrix_vec k mv [] inverse =
      .error (.invalidArgument msgWiresEmpty)) ∧
    (mv.length ≠ 1 → applyMatrix_kernel_vec kernel mv [] inverse =
      .error (.invalidArgument msgMatrixSize)) ∧
    (mv.length ≠ 1 → applyMatrix_vec k mv [] inverse =
      .error (.invalidArgument msgMatrixSize)) := by
  refine ⟨by rw [applyMatrix_kernel_ptr, if_pos rfl],
    by rw [applyMatrix_ptr, if_pos rfl],
    by rw [applyControlledMatrix_ptr, if_pos rfl],
    by rw [applyControlledMatrix_vec, applyControlledMatrix_ptr, if_pos rfl],
    ?_, ?_, ?_, ?_⟩
  · intro h1
    rw [applyMatrix_kernel_vec, if_neg (by simpa using h1),
      applyMatrix_kernel_ptr, if_pos rfl]
  · intro h1
    rw [applyMatrix_vec, if_neg (by simpa using h1), applyMatrix_ptr,
      if_pos rfl]
  · intro h1
    rw [applyMatrix_kernel_vec, if_pos (by simpa using h1)]
  · intro h1
    rw [applyMatrix_vec, if_pos (by simpa using h1)]

/-- C10 witness: the empty-wires theorem instantiated at a size-1 and a
size-4 matrix. -/
theorem empty_wires_abort_witness :
    applyMatrix_vec k0 [1] [] false =
      .error (.invalidArgument msgWiresEmpty) ∧
    applyMatrix_vec k0 [1, 0, 0, 1] [] false =
      .error (.invalidArgument msgMatrixSize) := by
  refine ⟨(empty_wires_abort k0 KernelType.scalar (fun _ => 0) [1] [] []
    false).2.2.2.2.2.1 (by simp), ?_⟩
  exact (empty_wires_abort k0 KernelType.scalar (fun _ => 0) [1, 0, 0, 1]
    [] [] false).2.2.2.2.2.2.2 (by simp)

/-! ### Measurement subsystem: probabilities, collapse, normalization -/

/-- One-qubit basis state at index 0 (concrete input for witnesses). -/
def svBasis0 : SV :=
  { numQubits := 1, data := fun i => if i = 0 then 1 else 0, rngState := 0 }

/-- One-qubit basis state at index 1 (concrete input for witnesses and
counterexamples). -/
def svBasis1 : SV :=
  { numQubits := 1, data := fun i => if i = 1 then 1 else 0, rngState := 0 }

lemma normalize_numQubits (sv : SV) : (normalize sv).numQubits = sv.numQubits := by
  rw [normalize]; split <;> rfl

lemma collapse_numQubits (sv : SV) (w : ℕ) (b : Bool) :
    (collapse sv w b).numQubits = sv.numQubits := by
  rw [collapse, normalize_numQubits]

lemma collapse_data_factor (sv : SV) (w : ℕ) (b : Bool) :
    ∃ c : ℂ, (collapse sv w b).data = fun i => collapsedData sv w b i * c := by
  rw [collapse, normalize]
  split
  · exact ⟨_, rfl⟩
  · exact ⟨1, by funext i; rw [mul_one]⟩

/-- The zeroing condition of `collapsedData`, expressed through the wire
bit of the index. -/
lemma collapsedData_cond (sv : SV) (w : ℕ) (b : Bool)
    (hw : w < sv.numQubits) (i : ℕ) :
    ((List.range ((2 ^ sv.numQubits / 2 ^ (sv.numQubits - (1 + w))) / 2)).any
        (fun idx => (List.range (2 ^ (sv.numQubits - (1 + w)))).any
          (fun ids => i == 2 ^ (sv.numQubits - (1 + w)) *
            ((if b then 0 else 1) + 2 * idx) + ids)) = true) ↔
      i < 2 ^ sv.numQubits ∧
        i / 2 ^ (sv.numQubits - (1 + w)) % 2 = (if b then 0 else 1) := by
  have hs : 0 < 2 ^ (sv.numQubits - (1 + w)) :=
    Nat.pos_pow_of_pos _ (by omega)
  rw [collapsedCond_iff, half_section_eq sv.numQubits w hw,
    strideDecomp_iff _ _ _ _ hs (by split <;> omega),
    stride_mul_total sv.numQubits w hw]

/-- C3: `probs` returns the pair `(p0, 1 - p0)` where `p0` sums the
squared magnitudes of exactly the indices whose wire bit is 0 under the
stride partition; on a normalized state both entries are probabilities
summing to 1. -/
theorem probs_stride_partition (sv : SV) (w : ℕ) (hw : w < sv.numQubits) :
    probs sv w = [specProb0 sv w, 1 - specProb0 sv w] ∧
    (squaredNorm sv.data (2 ^ sv.numQubits) = 1 →
      specProb0 sv w + (1 - specProb0 sv w) = 1 ∧
      0 ≤ specProb0 sv w ∧ specProb0 sv w ≤ 1 ∧
      0 ≤ 1 - specProb0 sv w ∧ 1 - specProb0 sv w ≤ 1) := by
  have hs : 0 < 2 ^ (sv.numQubits - (1 + w)) :=
    Nat.pos_pow_of_pos _ (by omega)
  have key : ∑ idx ∈ Finset.range
        ((2 ^ sv.numQubits / 2 ^ (sv.numQubits - (1 + w))) / 2),
      ∑ ids ∈ Finset.range (2 ^ (sv.numQubits - (1 + w))),
        Complex.normSq
          (sv.data (2 ^ (sv.numQubits - (1 + w)) * 2 * idx + ids)) =
      specProb0 sv w := by
    rw [half_section_eq sv.numQubits w hw]
    have h0 := sum_stride_filter (fun i => Complex.normSq (sv.data i))
      (2 ^ (sv.numQubits - (1 + w))) (2 ^ w) 0 hs (by omega)
    rw [stride_mul_total sv.numQubits w hw] at h0
    simp only [] at h0
    rw [specProb0, ← h0]
    refine Finset.sum_congr rfl fun idx _ => Finset.sum_congr rfl fun ids _ => ?_
    congr 2
    ring
  have hnn : 0 ≤ specProb0 sv w :=
    Finset.sum_nonneg fun i _ => Complex.normSq_nonneg _
  refine ⟨by rw [probs, key], fun hnorm => ⟨by ring, hnn, ?_, ?_, by linarith⟩⟩
  · have hle : specProb0 sv w ≤ squaredNorm sv.data (2 ^ sv.numQubits) :=
      Finset.sum_le_sum_of_subset_of_nonneg (Finset.filter_subset _ _)
        (fun i _ _ => Complex.normSq_nonneg _)
    linarith
  · have hle : specProb0 sv w ≤ squaredNorm sv.data (2 ^ sv.numQubits) :=
      Finset.sum_le_sum_of_subset_of_nonneg (Finset.filter_subset _ _)
        (fun i _ _ => Complex.normSq_nonneg _)
    linarith

/-- C3 witness: the `probs` theorem instantiated at the one-qubit basis
state of index 1 (a normalized state), wire 0. -/
theorem probs_stride_partition_witness :
    (0 : ℕ) < 1 ∧
    (probs svBasis1 0 = [specProb0 svBasis1 0, 1 - specProb0 svBasis1 0] ∧
      (squaredNorm svBasis1.data (2 ^ svBasis1.numQubits) = 1 →
        specProb0 svBasis1 0 + (1 - specProb0 svBasis1 0) = 1 ∧
        0 ≤ specProb0 svBasis1 0 ∧ specProb0 svBasis1 0 ≤ 1 ∧
        0 ≤ 1 - specProb0 svBasis1 0 ∧ 1 - specProb0 svBasis1 0 ≤ 1)) :=
  ⟨by norm_num, probs_stride_partition svBasis1 0 (by norm_num [svBasis1])⟩

/-- C4: `collapse(wire, branch)` zeroes exactly the amplitudes whose
wire bit disagrees with the branch, then rescales every amplitude by the
reciprocal of the post-collapse norm exactly when that norm exceeds
`100 * machineEps`; at or below the threshold the zeroed buffer is kept
unscaled (and the call still produces a state). -/
theorem collapse_stride_characterization (sv : SV) (w : ℕ) (b : Bool)
    (hw : w < sv.numQubits) :
    (∀ i, i < 2 ^ sv.numQubits →
      collapsedData sv w b i =
        if i / 2 ^ (sv.numQubits - (1 + w)) % 2 = (if b then 1 else 0)
        then sv.data i else 0) ∧
    (machineEps * 100 <
        Real.sqrt (squaredNorm (collapsedData sv w b) (2 ^ sv.numQubits)) →
      (collapse sv w b).data = fun i =>
        collapsedData sv w b i *
          ((1 / Real.sqrt
            (squaredNorm (collapsedData sv w b) (2 ^ sv.numQubits)) : ℝ) : ℂ)) ∧
    (¬ machineEps * 100 <
        Real.sqrt (squaredNorm (collapsedData sv w b) (2 ^ sv.numQubits)) →
      (collapse sv w b).data = collapsedData sv w b) := by
  have hs : 0 < 2 ^ (sv.numQubits - (1 + w)) :=
    Nat.pos_pow_of_pos _ (by omega)
  refine ⟨?_, ?_, ?_⟩
  · intro i hi
    have hkv : ((if b then (0:ℕ) else 1) = 0 ∧ (if b then (1:ℕ) else 0) = 1) ∨
        ((if b then (0:ℕ) else 1) = 1 ∧ (if b then (1:ℕ) else 0) = 0) := by
      cases b <;> simp
    have h2 : i / 2 ^ (sv.numQubits - (1 + w)) % 2 < 2 :=
      Nat.mod_lt _ (by omega : (0:ℕ) < 2)
    rw [collapsedData]
    by_cases hbit :
        i / 2 ^ (sv.numQubits - (1 + w)) % 2 = (if b then 0 else 1)
    · rw [if_pos ((collapsedData_cond sv w b hw i).2 ⟨hi, hbit⟩),
        if_neg (by
          rcases hkv with ⟨hk1, hk2⟩ | ⟨hk1, hk2⟩
          · rw [hk2]; rw [hk1] at hbit; omega
          · rw [hk2]; rw [hk1] at hbit; omega)]
    · rw [if_neg (fun hc => hbit ((collapsedData_cond sv w b hw i).1 hc).2),
        if_pos (by
          rcases hkv with ⟨hk1, hk2⟩ | ⟨hk1, hk2⟩
          · rw [hk2]; rw [hk1] at hbit; omega
          · rw [hk2]; rw [hk1] at hbit; omega)]
  · intro h
    rw [collapse, normalize]
    rw [if_pos (by exact h)]
  · intro h
    rw [collapse, normalize]
    rw [if_neg (by exact h)]

/-- C4 witness: the collapse characterization instantiated at the
one-qubit basis state of index 0, wire 0, branch 0. -/
theorem collapse_stride_characterization_witness :
    (0 : ℕ) < 1 ∧
    collapsedData svBasis0 0 false 1 =
      (if (1 : ℕ) / 2 ^ (1 - (1 + 0)) % 2 = (if false then 1 else 0)
       then svBasis0.data 1 else 0) :=
  ⟨by norm_num,
    (collapse_stride_characterization svBasis0 0 false (by norm_num [svBasis0])).1 1
      (by norm_num [svBasis0])⟩

/-! ### Collapse followed by probability readout -/

lemma squaredNorm_nonneg (data : ℕ → ℂ) (len : ℕ) :
    0 ≤ squaredNorm data len :=
  Finset.sum_nonneg fun _ _ => Complex.normSq_nonneg _

lemma machineEps_pos : (0 : ℝ) < machineEps * 100 := by
  rw [machineEps]; norm_num

lemma collapse_data_rescaled (sv : SV) (w : ℕ) (b : Bool)
    (h : machineEps * 100 <
      Real.sqrt (squaredNorm (collapsedData sv w b) (2 ^ sv.numQubits))) :
    (collapse sv w b).data = fun i =>
      collapsedData sv w b i *
        ((1 / Real.sqrt
          (squaredNorm (collapsedData sv w b) (2 ^ sv.numQubits)) : ℝ) : ℂ) := by
  rw [collapse, normalize]
  rw [if_pos (by exact h)]

lemma collapse_data_unscaled (sv : SV) (w : ℕ) (b : Bool)
    (h : ¬ machineEps * 100 <
      Real.sqrt (squaredNorm (collapsedData sv w b) (2 ^ sv.numQubits))) :
    (collapse sv w b).data = collapsedData sv w b := by
  rw [collapse, normalize]
  rw [if_neg (by exact h)]

/-- Entries on the zeroed branch of `collapsedData` vanish. -/
lemma collapsedData_zeroed (sv : SV) (w : ℕ) (b : Bool) (idx ids : ℕ)
    (hidx : idx < (2 ^ sv.numQubits / 2 ^ (sv.numQubits - (1 + w))) / 2)
    (hids : ids < 2 ^ (sv.numQubits - (1 + w))) :
    collapsedData sv w b
      (2 ^ (sv.numQubits - (1 + w)) * ((if b then 0 else 1) + 2 * idx) + ids)
      = 0 := by
  rw [collapsedData]
  exact if_pos ((collapsedCond_iff _ _ _ _).2 ⟨idx, hidx, ids, hids, rfl⟩)

/-- The double accumulation of `probs` over the surviving (bit = 0)
branch of the `branch = 0` collapse recovers the whole post-collapse
squared norm. -/
lemma sum_sq_collapsedData_false (sv : SV) (w : ℕ) (hw : w < sv.numQubits) :
    ∑ idx ∈ Finset.range
        ((2 ^ sv.numQubits / 2 ^ (sv.numQubits - (1 + w))) / 2),
      ∑ ids ∈ Finset.range (2 ^ (sv.numQubits - (1 + w))),
        Complex.normSq (collapsedData sv w false
          (2 ^ (sv.numQubits - (1 + w)) * 2 * idx + ids)) =
    squaredNorm (collapsedData sv w false) (2 ^ sv.numQubits) := by
  have hs : 0 < 2 ^ (sv.numQubits - (1 + w)) :=
    Nat.pos_pow_of_pos _ (by omega)
  have h0 := sum_stride_filter
    (fun i => Complex.normSq (collapsedData sv w false i))
    (2 ^ (sv.numQubits - (1 + w))) (2 ^ w) 0 hs (by omega)
  rw [stride_mul_total sv.numQubits w hw] at h0
  simp only [] at h0
  have hL : ∑ idx ∈ Finset.range
        ((2 ^ sv.numQubits / 2 ^ (sv.numQubits - (1 + w))) / 2),
      ∑ ids ∈ Finset.range (2 ^ (sv.numQubits - (1 + w))),
        Complex.normSq (collapsedData sv w false
          (2 ^ (sv.numQubits - (1 + w)) * 2 * idx + ids)) =
      ∑ i ∈ (Finset.range (2 ^ sv.numQubits)).filter
          (fun i => i / 2 ^ (sv.numQubits - (1 + w)) % 2 = 0),
        Complex.normSq (collapsedData sv w false i) := by
    rw [half_section_eq sv.numQubits w hw, ← h0]
    refine Finset.sum_congr rfl fun idx _ => Finset.sum_congr rfl fun ids _ => ?_
    congr 2
    ring
  have hR : squaredNorm (collapsedData sv w false) (2 ^ sv.numQubits) =
      (∑ i ∈ (Finset.range (2 ^ sv.numQubits)).filter
          (fun i => i / 2 ^ (sv.numQubits - (1 + w)) % 2 = 0),
        Complex.normSq (collapsedData sv w false i)) +
      ∑ i ∈ (Finset.range (2 ^ sv.numQubits)).filter
          (fun i => ¬ i / 2 ^ (sv.numQubits - (1 + w)) % 2 = 0),
        Complex.normSq (collapsedData sv w false i) := by
    rw [squaredNorm,
      ← Finset.sum_filter_add_sum_filter_not (Finset.range (2 ^ sv.numQubits))
        (fun i => i / 2 ^ (sv.numQubits - (1 + w)) % 2 = 0)]
  have hzero : ∑ i ∈ (Finset.range (2 ^ sv.numQubits)).filter
      (fun i => ¬ i / 2 ^ (sv.numQubits - (1 + w)) % 2 = 0),
      Complex.normSq (collapsedData sv w false i) = 0 := by
    refine Finset.sum_eq_zero fun i hi => ?_
    rw [Finset.mem_filter, Finset.mem_range] at hi
    have hbit : i / 2 ^ (sv.numQubits - (1 + w)) % 2 = 1 := by
      have h2 : i / 2 ^ (sv.numQubits - (1 + w)) % 2 < 2 :=
        Nat.mod_lt _ (by omega : (0:ℕ) < 2)
      omega
    have hc : collapsedData sv w false i = 0 := by
      rw [collapsedData]
      refine if_pos ((collapsedData_cond sv w false hw i).2 ⟨hi.1, ?_⟩)
      simpa using hbit
    rw [hc, map_zero]
  rw [hL, hR, hzero, add_zero]

/-- C8 (amended): after `collapse(w, 1)` the zero-branch probability is
exactly 0, so `probs(w)` returns `(0, 1)` unconditionally; after
`collapse(w, 0)`, `probs(w)` returns `(1, 0)` provided the post-collapse
norm exceeds the `100 * machineEps` rescaling threshold (when the norm
is at or below the threshold, the skipped rescale leaves `p0` at the
branch's raw squared norm instead of 1). -/
theorem collapse_then_probs (sv : SV) (w : ℕ) (hw : w < sv.numQubits) :
    probs (collapse sv w true) w = [0, 1] ∧
    (machineEps * 100 <
        Real.sqrt (squaredNorm (collapsedData sv w false) (2 ^ sv.numQubits)) →
      probs (collapse sv w false) w = [1, 0]) := by
  constructor
  · obtain ⟨c, hc⟩ := collapse_data_factor sv w true
    rw [probs]
    simp only [collapse_numQubits, hc]
    rw [Finset.sum_eq_zero (fun idx hidx => Finset.sum_eq_zero fun ids hids => ?_)]
    · norm_num
    · rw [Finset.mem_range] at hidx hids
      have hz : collapsedData sv w true
          (2 ^ (sv.numQubits - (1 + w)) * 2 * idx + ids) = 0 := by
        have := collapsedData_zeroed sv w true idx ids hidx hids
        rw [if_pos rfl] at this
        rw [show 2 ^ (sv.numQubits - (1 + w)) * 2 * idx + ids =
          2 ^ (sv.numQubits - (1 + w)) * (0 + 2 * idx) + ids by ring]
        exact this
      dsimp only
      rw [hz, zero_mul, map_zero]
  · intro h
    have hZnn : 0 ≤ squaredNorm (collapsedData sv w false) (2 ^ sv.numQubits) :=
      squaredNorm_nonneg _ _
    have hspos : 0 < Real.sqrt
        (squaredNorm (collapsedData sv w false) (2 ^ sv.numQubits)) :=
      lt_trans machineEps_pos h
    have hss : Real.sqrt (squaredNorm (collapsedData sv w false)
          (2 ^ sv.numQubits)) *
        Real.sqrt (squaredNorm (collapsedData sv w false) (2 ^ sv.numQubits)) =
        squaredNorm (collapsedData sv w false) (2 ^ sv.numQubits) :=
      Real.mul_self_sqrt hZnn
    have hZpos : 0 < squaredNorm (collapsedData sv w false) (2 ^ sv.numQubits) := by
      rw [← hss]
      exact mul_pos hspos hspos
    rw [probs]
    simp only [collapse_numQubits, collapse_data_rescaled sv w false h]
    simp only [Complex.normSq_mul, Complex.normSq_ofReal]
    simp only [← Finset.sum_mul]
    rw [sum_sq_collapsedData_false sv w hw]
    have hone : squaredNorm (collapsedData sv w false) (2 ^ sv.numQubits) *
        (1 / Real.sqrt (squaredNorm (collapsedData sv w false)
          (2 ^ sv.numQubits)) *
         (1 / Real.sqrt (squaredNorm (collapsedData sv w false)
          (2 ^ sv.numQubits)))) = 1 := by
      rw [one_div_mul_one_div, hss]
      exact mul_one_div_cancel (ne_of_gt hZpos)
    rw [hone]
    norm_num

/-- One-qubit normalized state whose zero-branch amplitude `2^-60` is
nonzero yet below the rescaling threshold (concrete counterexample
input). -/
def svTiny : SV :=
  { numQubits := 1
    data := fun i =>
      if i = 0 then ((1 / 2 ^ 60 : ℝ) : ℂ)
      else ((Real.sqrt (1 - (1 / 2 ^ 60 : ℝ) ^ 2) : ℝ) : ℂ)
    rngState := 0 }

/-- C8 counterexample: `svTiny` is normalized with nonzero amplitude on
branch 0, yet `collapse(0, 0)` followed by `probs(0)` does not return
`(1, 0)`: the post-collapse norm `2^-60` is below the `100 * machineEps`
threshold, the rescale is skipped, and `p0` stays at `2^-120`. -/
theorem collapse_then_probs_counterexample :
    squaredNorm svTiny.data (2 ^ svTiny.numQubits) = 1 ∧
    svTiny.data 0 ≠ 0 ∧
    probs (collapse svTiny 0 false) 0 ≠ [1, 0] := by
  have hd0 : svTiny.data 0 = ((1 / 2 ^ 60 : ℝ) : ℂ) := by
    simp [svTiny]
  have hd1 : svTiny.data 1 = ((Real.sqrt (1 - (1 / 2 ^ 60 : ℝ) ^ 2) : ℝ) : ℂ) := by
    simp [svTiny]
  refine ⟨?_, ?_, ?_⟩
  · show squaredNorm svTiny.data 2 = 1
    rw [squaredNorm, Finset.sum_range_succ, Finset.sum_range_one, hd0, hd1,
      Complex.normSq_ofReal, Complex.normSq_ofReal,
      Real.mul_self_sqrt (by norm_num : (0:ℝ) ≤ 1 - (1 / 2 ^ 60 : ℝ) ^ 2)]
    ring
  · rw [hd0]
    intro h
    rw [Complex.ofReal_eq_zero] at h
    norm_num at h
  · have hcd0 : collapsedData svTiny 0 false 0 = ((1 / 2 ^ 60 : ℝ) : ℂ) := by
      simp only [collapsedData]
      rw [if_neg (by decide)]
      exact hd0
    have hcd1 : collapsedData svTiny 0 false 1 = 0 := by
      simp only [collapsedData]
      rw [if_pos (by decide)]
    have hZ : squaredNorm (collapsedData svTiny 0 false)
        (2 ^ svTiny.numQubits) = (1 / 2 ^ 60 : ℝ) * (1 / 2 ^ 60) := by
      show squaredNorm _ 2 = _
      rw [squaredNorm, Finset.sum_range_succ, Finset.sum_range_one, hcd0, hcd1,
        Complex.normSq_ofReal, map_zero, add_zero]
    have hsq : Real.sqrt (squaredNorm (collapsedData svTiny 0 false)
        (2 ^ svTiny.numQubits)) = 1 / 2 ^ 60 := by
      rw [hZ, Real.sqrt_mul_self (by norm_num : (0:ℝ) ≤ 1 / 2 ^ 60)]
    have hno : ¬ machineEps * 100 <
        Real.sqrt (squaredNorm (collapsedData svTiny 0 false)
          (2 ^ svTiny.numQubits)) := by
      rw [hsq, machineEps]
      norm_num
    have hdata := collapse_data_unscaled svTiny 0 false hno
    have hnq : svTiny.numQubits = 1 := rfl
    rw [probs]
    simp only [collapse_numQubits, hdata, hnq]
    norm_num [Finset.sum_range_one, hcd0, Complex.normSq_ofReal]

/-- C8 witness: the amended collapse-then-probs theorem instantiated at
the one-qubit basis state of index 0 and wire 0; the branch-0
post-collapse norm is 1, above the threshold. -/
theorem collapse_then_probs_witness :
    (0 : ℕ) < 1 ∧
    probs (collapse svBasis0 0 true) 0 = [0, 1] ∧
    probs (collapse svBasis0 0 false) 0 = [1, 0] := by
  have hcd0 : collapsedData svBasis0 0 false 0 = 1 := by
    simp only [collapsedData]
    rw [if_neg (by decide)]
    rfl
  have hcd1 : collapsedData svBasis0 0 false 1 = 0 := by
    simp only [collapsedData]
    rw [if_pos (by decide)]
  have hZ : squaredNorm (collapsedData svBasis0 0 false)
      (2 ^ svBasis0.numQubits) = 1 := by
    show squaredNorm _ 2 = 1
    rw [squaredNorm, Finset.sum_range_succ, Finset.sum_range_one, hcd0, hcd1,
      map_zero, add_zero, Complex.normSq_one]
  have hyp : machineEps * 100 <
      Real.sqrt (squaredNorm (collapsedData svBasis0 0 false)
        (2 ^ svBasis0.numQubits)) := by
    rw [hZ, Real.sqrt_one, machineEps]
    norm_num
  have h := collapse_then_probs svBasis0 0 (by norm_num [svBasis0])
  exact ⟨by norm_num, h.1, h.2 hyp⟩

/-- Concrete instance with stream state 3 (for the determinism witness). -/
def svSeedA : SV :=
  { numQubits := 1, data := fun i => if i = 1 then 1 else 0, rngState := 3 }

/-- Concrete instance with stream state 7 (for the determinism witness). -/
def svSeedB : SV :=
  { numQubits := 1, data := fun i => if i = 1 then 1 else 0, rngState := 7 }

/-- A concrete gate implementation whose Pauli kernels leave the buffer
unchanged (for witnesses; the scalar result does not depend on it). -/
def G0 : GateImplementation :=
  { applyPauliX := fun d _ _ _ => d
    applyPauliY := fun d _ _ _ => d
    applyPauliZ := fun d _ _ _ => d }

/-! ### Measurement with postselection, sampling determinism, generators -/

/-- On the basis state of index 1 the zero-branch probability is 0, so
the drawn sample is forced to 1 whatever the stream state. -/
lemma svBasis1_sample :
    (random_sample ((probs svBasis1 0).getD 0 0) svBasis1.rngState).1 = 1 := by
  have hp : (probs svBasis1 0).getD 0 0 = 0 := by
    rw [probs]
    have hnq : svBasis1.numQubits = 1 := rfl
    simp only [hnq, List.getD_cons_zero]
    norm_num [Finset.sum_range_one, svBasis1]
  rw [hp, random_sample]
  have : ¬ rngUnif svBasis1.rngState < 0 := by
    rw [rngUnif]
    exact not_lt.2 (by positivity)
  simp [this]

/-- C1 (amended): whenever the drawn sample disagrees with a postselect
value in `{0, 1}`, `measure` reports `-1` and leaves the buffer
identically zero (the `setBasisState(0)` reset is immediately followed
by zeroing the amplitude at index 0), for every wire and reset flag. -/
theorem measure_postselect_mismatch (sv : SV) (w : ℕ) (ps : ℤ) (reset : Bool)
    (hps : ps = 0 ∨ ps = 1)
    (hdis : (random_sample ((probs sv w).getD 0 0) sv.rngState).1 ≠ ps) :
    (measure sv w ps reset).1 = -1 ∧
    ∀ i, (measure sv w ps reset).2.data i = 0 := by
  rw [measure]
  simp only []
  rw [if_pos ⟨by omega, Ne.symm hdis⟩]
  refine ⟨rfl, fun i => ?_⟩
  by_cases hi : i = 0
  · simp [hi]
  · simp [hi, setBasisState]

/-- C1 witness: the mismatch theorem instantiated at the basis state of
index 1, wire 0, postselect 0 (the drawn sample is forced to 1). -/
theorem measure_postselect_mismatch_witness :
    ((0 : ℤ) = 0 ∨ (0 : ℤ) = 1) ∧
    (measure svBasis1 0 0 false).1 = -1 ∧
    (measure svBasis1 0 0 false).2.data 0 = 0 := by
  have hdis : (random_sample ((probs svBasis1 0).getD 0 0)
      svBasis1.rngState).1 ≠ 0 := by
    rw [svBasis1_sample]
    decide
  have h := measure_postselect_mismatch svBasis1 0 0 false (Or.inl rfl) hdis
  exact ⟨Or.inl rfl, h.1, h.2 0⟩

/-- C1 counterexample: measuring wire 0 of the basis state of index 1
with `postselect = 0` draws sample 1, reports `-1`, and leaves the
amplitude at global index 0 equal to 0 — not 1 as the claimed
basis-state outcome would require. -/
theorem measure_postselect_mismatch_counterexample :
    (measure svBasis1 0 0 false).1 = -1 ∧
    (measure svBasis1 0 0 false).2.data 0 = 0 ∧
    (measure svBasis1 0 0 false).2.data 0 ≠ 1 := by
  have hdis : (0 : ℤ) ≠ (random_sample ((probs svBasis1 0).getD 0 0)
      svBasis1.rngState).1 := by
    rw [svBasis1_sample]
    decide
  rw [measure]
  simp only []
  rw [if_pos ⟨by decide, hdis⟩]
  refine ⟨rfl, by simp, by simp⟩

/-- C9: sampling is a deterministic function of the seed and the state:
two instances with identical buffers and qubit counts, reseeded with the
same value, produce identical sample sequences under repeated
`measure`. -/
theorem measure_sampling_deterministic (sv1 sv2 : SV) (v w count : ℕ)
    (hq : sv1.numQubits = sv2.numQubits) (hd : sv1.data = sv2.data) :
    measureSeq (seed sv1 v) w count = measureSeq (seed sv2 v) w count := by
  have h : seed sv1 v = seed sv2 v := by
    cases sv1
    cases sv2
    simp_all [seed]
  rw [h]

/-- C9 witness: two instances with the same Hadamard-free buffer but
different stream states, reseeded with 42, agree on three samples. -/
theorem measure_sampling_deterministic_witness :
    svSeedA.numQubits = svSeedB.numQubits ∧ svSeedA.data = svSeedB.data ∧
    measureSeq (seed svSeedA 42) 0 3 = measureSeq (seed svSeedB 42) 0 3 :=
  ⟨rfl, rfl, measure_sampling_deterministic svSeedA svSeedB 42 0 3 rfl rfl⟩

/-- C7: the `PauliGenerator` kernels return exactly the scalar `-1/2`
for RX, RY and RZ — for every gate implementation, buffer, qubit count,
wire list and adjoint flag — and the named `applyGenerator` entry point
surfaces exactly that constant for each of the three names. -/
theorem pauli_generator_coefficient (G : GateImplementation) (data : ℕ → ℂ)
    (num_qubits : ℕ) (wires : List ℕ) (adj : Bool) (sv : SV)
    (opName : String)
    (h : opName = "RX" ∨ opName = "RY" ∨ opName = "RZ") :
    (applyGeneratorRX G data num_qubits wires adj).2 = -(1 / 2) ∧
    (applyGeneratorRY G data num_qubits wires adj).2 = -(1 / 2) ∧
    (applyGeneratorRZ G data num_qubits wires adj).2 = -(1 / 2) ∧
    ∃ sv', applyGenerator_named G sv opName wires adj =
      .ok (sv', -(1 / 2)) := by
  refine ⟨by rw [applyGeneratorRX]; norm_num,
    by rw [applyGeneratorRY]; norm_num,
    by rw [applyGeneratorRZ]; norm_num, ?_⟩
  rcases h with h | h | h <;> subst h
  · refine ⟨{ sv with data := G.applyPauliX sv.data sv.numQubits wires adj }, ?_⟩
    simp [applyGenerator_named, dispatchGenerator, applyGeneratorRX]
    norm_num
  · refine ⟨{ sv with data := G.applyPauliY sv.data sv.numQubits wires adj }, ?_⟩
    simp [applyGenerator_named, dispatchGenerator, applyGeneratorRY]
    norm_num
  · refine ⟨{ sv with data := G.applyPauliZ sv.data sv.numQubits wires adj }, ?_⟩
    simp [applyGenerator_named, dispatchGenerator, applyGeneratorRZ]
    norm_num

/-- C7 witness: the generator-coefficient theorem instantiated at the
identity-like gate implementation, the basis state of index 0 and the
name RX. -/
theorem pauli_generator_coefficient_witness :
    (applyGeneratorRX G0 svBasis0.data 1 [0] false).2 = -(1 / 2) ∧
    ∃ sv', applyGenerator_named G0 svBasis0 "RX" [0] false =
      .ok (sv', -(1 / 2)) := by
  have h := pauli_generator_coefficient G0 svBasis0.data 1 [0] false svBasis0
    "RX" (Or.inl rfl)
  exact ⟨h.1, h.2.2.2⟩

end LightningQubit
